import Mathlib

/-!
Verification of the queue-management handlers of
`crates/jmap/src/api/management/queue.rs` (Stalwart mail server).

Strings are modelled as `List Char`; machine integers (`u64`, `usize`) as
`Nat` with explicit `< 2 ^ 64` bounds where the source can overflow or
reject; timestamps (`DateTime`) by their underlying integer timestamps.
Fallible operations return `Option`.  Storage writes, deletions and
event-bus messages performed by a handler are reified as explicit action
lists.  Functions of this repository that live outside the extracted
sources (the smtp crate's `next_event`, `next_delivery_event`, the key
codec of the store crate, std's integer formatting/parsing) are modelled
from the spec and marked as such in their doc comments.
-/

/-- Rust `str::contains` (substring test) on `List Char`. -/
def listContains (hay needle : List Char) : Bool :=
  needle.isPrefixOf hay ||
    match hay with
    | [] => false
    | _ :: t => listContains t needle

/-- Rust `str::split('!')`: splits at every `'!'`, keeping empty segments;
always returns at least one segment. -/
def splitBang : List Char → List (List Char)
  | [] => [[]]
  | c :: cs =>
    if c = '!' then [] :: splitBang cs
    else
      match splitBang cs with
      | [] => [[c]]
      | s :: rest => (c :: s) :: rest

/-- Modelled from the spec: one decimal digit of std's `u64` formatting
(outside this repository's sources). -/
def digitChar : Nat → Char
  | 0 => '0' | 1 => '1' | 2 => '2' | 3 => '3' | 4 => '4'
  | 5 => '5' | 6 => '6' | 7 => '7' | 8 => '8' | _ => '9'

/-- Fuel-driven decimal rendering; fuel-adequate whenever `n < fuel`. -/
def natCharsAux : Nat → Nat → List Char
  | 0, _ => []
  | fuel + 1, n =>
    if n < 10 then [digitChar n]
    else natCharsAux fuel (n / 10) ++ [digitChar (n % 10)]

/-- Modelled from the spec: std's decimal rendering of an unsigned
integer, as used by `format!` in `GenerateQueueId::queue_id`. -/
def natChars (n : Nat) : List Char :=
  natCharsAux (n + 1) n

/-- Numeric value of a digit character, `none` on a non-digit.  Matches
the digits accepted by Rust's `u64::from_str` (ASCII `0`-`9` only). -/
def digitVal (c : Char) : Option Nat :=
  if 48 ≤ c.toNat ∧ c.toNat ≤ 57 then some (c.toNat - 48) else none

/-- Accumulating decimal evaluation; `none` at the first non-digit. -/
def digitsValAux : List Char → Nat → Option Nat
  | [], acc => some acc
  | c :: cs, acc =>
    match digitVal c with
    | some d => digitsValAux cs (acc * 10 + d)
    | none => none

/-- Rust `u64::from_str` strips one leading `'+'`. -/
def stripPlus (s : List Char) : List Char :=
  match s with
  | c :: rest => if c = '+' then rest else s
  | [] => s

/-- Modelled from the spec: Rust's `str::parse::<u64>` (std, outside this
repository's sources): optional leading `'+'`, at least one digit, only
ASCII digits, value within `u64` range. -/
def parseU64 (s : List Char) : Option Nat :=
  match stripPlus s with
  | [] => none
  | s2 =>
    match digitsValAux s2 0 with
    | some v => if v < 2 ^ 64 then some v else none
    | none => none

/-- `smtp::queue::Status<Success, Failure>` (shared by domains and
recipients). -/
inductive Status (S F : Type) where
  | scheduled
  | completed (v : S)
  | temporaryFailure (v : F)
  | permanentFailure (v : F)
deriving DecidableEq

/-- `smtp::queue::ErrorDetails`; `Default` gives empty strings. -/
structure ErrorDetails where
  entity : List Char
  details : List Char
deriving DecidableEq

/-- `smtp_proto::Response` as constructed in the cancel handler. -/
structure SmtpResponse where
  code : Nat
  esc : List Nat
  message : List Char
deriving DecidableEq

/-- `smtp::queue::HostResponse<T>`. -/
structure HostResponse (T : Type) where
  hostname : T
  response : SmtpResponse
deriving DecidableEq

/-- `smtp::queue::Schedule` (`due` timestamp plus payload `inner`, the
retry/notify counter). -/
structure Schedule where
  due : Nat
  inner : Nat
deriving DecidableEq

/-- Domain status: `Status<(), Error>`; the smtp crate's `Error` payload
is modelled by its display string (its structure is outside the extracted
sources and never inspected by the handlers). -/
abbrev DomainStatus := Status Unit (List Char)

/-- Recipient status: `Status<HostResponse<String>, HostResponse<ErrorDetails>>`. -/
abbrev RecipientStatus := Status (HostResponse (List Char)) (HostResponse ErrorDetails)

/-- `smtp::queue::Domain` — the per-recipient-domain delivery unit
(spec §3), with the fields the handlers read and write. -/
structure QDomain where
  domain : List Char
  retry : Schedule
  notify : Schedule
  expires : Nat
  status : DomainStatus
deriving DecidableEq

/-- `smtp::queue::Recipient`. -/
structure QRecipient where
  domain_idx : Nat
  address : List Char
  address_lcase : List Char
  status : RecipientStatus
  orcpt : Option (List Char)
deriving DecidableEq

/-- `smtp::queue::Message` — the persisted queue record (spec §3). -/
structure QMessage where
  id : Nat
  created : Nat
  return_path : List Char
  recipients : List QRecipient
  domains : List QDomain
  size : Nat
  priority : Int
  env_id : Option (List Char)
deriving DecidableEq

/-- `store::write::ReportEvent` (field order as in the store crate). -/
structure ReportEvent where
  due : Nat
  policy_hash : Nat
  seq_id : Nat
  domain : List Char
deriving DecidableEq

/-- The `store::write::QueueClass` variants handled in `queue.rs`. -/
inductive QueueClass where
  | Message (id : Nat)
  | DmarcReportHeader (e : ReportEvent)
  | TlsReportHeader (e : ReportEvent)
deriving DecidableEq

/-- The `format!` body shared by both arms of `GenerateQueueId::queue_id`
(lines 594-606): `<class>!<domain>!<policy_hash>!<seq_id>!<due>`. -/
def encodeReport (tag : Char) (h : ReportEvent) : List Char :=
  [tag] ++ ('!' :: (h.domain ++ ('!' :: (natChars h.policy_hash ++
    ('!' :: (natChars h.seq_id ++ ('!' :: natChars h.due)))))))

/-- `GenerateQueueId::queue_id` (lines 594-606).  The source calls
`unreachable!` on non-report-header variants; that arm is modelled as
`none` (no handler ever reaches it). -/
def queue_id : QueueClass → Option (List Char)
  | .DmarcReportHeader h => some (encodeReport 'd' h)
  | .TlsReportHeader h => some (encodeReport 't' h)
  | _ => none

/-- `parse_queued_report_id` (lines 608-622): split on `'!'`, take the
class tag, the domain, and three `u64` fields; any missing or unparsable
field yields `none`; segments after the fifth are ignored. -/
def parse_queued_report_id (id : List Char) : Option QueueClass :=
  match splitBang id with
  | type_ :: d :: p :: q :: u :: _ =>
    match parseU64 p, parseU64 q, parseU64 u with
    | some policy_hash, some seq_id, some due =>
      let event : ReportEvent :=
        { due := due, policy_hash := policy_hash, seq_id := seq_id, domain := d }
      if type_ = ['d'] then some (.DmarcReportHeader event)
      else if type_ = ['t'] then some (.TlsReportHeader event)
      else none
    | _, _, _ => none
  | _ => none

/-- The status pattern `Status::Scheduled | Status::TemporaryFailure(_)`
used throughout the handlers for a still-pending domain. -/
def pendingStatus : DomainStatus → Bool
  | .scheduled => true
  | .temporaryFailure _ => true
  | _ => false

/-- Terminal recipient pattern
`Status::PermanentFailure(_) | Status::Completed(_)` (line 324-327). -/
def rcptDone : RecipientStatus → Bool
  | .completed _ => true
  | .permanentFailure _ => true
  | _ => false

/-- The reschedule loop's guard (lines 256-262): domain still pending and
its name contains the `filter` parameter when one was given. -/
def domainMatches (item : Option (List Char)) (d : QDomain) : Bool :=
  pendingStatus d.status &&
    match item with
    | none => true
    | some it => listContains d.domain it

/-- Body of the reschedule loop (lines 255-269): on a matching domain set
`retry.due = time` and, when `expires > time`, set `expires = time + 10`;
report whether the domain matched. -/
def rescheduleDomain (time : Nat) (item : Option (List Char)) (d : QDomain) : QDomain × Bool :=
  if domainMatches item d then
    ({ d with retry := { d.retry with due := time },
              expires := if time < d.expires then time + 10 else d.expires }, true)
  else (d, false)

/-- The whole reschedule loop over `message.domains`: every domain is
updated independently and `found` is the OR of the per-domain flags. -/
def rescheduleMessage (time : Nat) (item : Option (List Char)) (m : QMessage) : QMessage × Bool :=
  ({ m with domains := m.domains.map (fun d => (rescheduleDomain time item d).1) },
   m.domains.any (fun d => (rescheduleDomain time item d).2))

/-- `Timestamp::from_str` (lines 626-639).  The RFC3339 string parse is
performed by the mail_parser crate (outside the extracted sources), so the
input is modelled as the already-parsed timestamp, `none` when the string
does not parse; an instant earlier than `now` is rejected. -/
def timestampFromStr (parsed : Option Nat) (nowv : Nat) : Option Nat :=
  match parsed with
  | some instant => if nowv ≤ instant then some instant else none
  | none => none

/-- Modelled from the spec: `next_event` of one domain (§4.2) — the
earliest of `retry.due`, `notify.due` and `expires` while the domain is
pending, else none.  The real definition lives in the smtp crate, outside
the extracted sources. -/
def domainNextEvent (d : QDomain) : Option Nat :=
  if pendingStatus d.status then some (min (min d.retry.due d.notify.due) d.expires) else none

/-- Modelled from the spec: `Message::next_event` (§4.2) — the minimum of
the per-domain next events, none when every domain is terminal.  Defined
in the smtp crate, outside the extracted sources. -/
def nextEvent (m : QMessage) : Option Nat :=
  m.domains.foldl
    (fun acc d =>
      match acc, domainNextEvent d with
      | some a, some b => some (min a b)
      | some a, none => some a
      | none, b => b)
    none

/-- Modelled from the spec: `Message::next_delivery_event` — the earliest
`retry.due` among pending domains (next-event time, §4.2), the current
time when no domain is pending.  Defined in the smtp crate, outside the
extracted sources. -/
def nextDeliveryEvent (nowv : Nat) (m : QMessage) : Nat :=
  (m.domains.foldl
    (fun acc d =>
      if pendingStatus d.status then
        match acc with
        | some a => some (min a d.retry.due)
        | none => some d.retry.due
      else acc)
    none).getD nowv

/-- Storage and event-bus effects a handler performs, in order:
`save_changes(core, a, b)`, `remove(core, prev)`, and
`queue_tx.send(Event::Reload)`. -/
inductive QAction where
  | save (a b : Option Nat)
  | remove (prev : Nat)
  | reload
deriving DecidableEq

/-- Result of the PATCH (reschedule) and DELETE (cancel) message
handlers: `not_found`, or the JSON `found` flag together with the final
in-memory record and the effects performed. -/
inductive MutOutcome where
  | notFound
  | ok (found : Bool) (message : QMessage) (actions : List QAction)
deriving DecidableEq

/-- The PATCH `messages/{id}` handler body (lines 240-286) after the
message lookup: `at` falls back to `now()` when absent, unparsable or in
the past; on any match the record is saved under
`(prev_event, next_event)` and a reload is published. -/
def handleRescheduleCore (nowv : Nat) (atParsed : Option Nat) (item : Option (List Char))
    (stored : Option QMessage) : MutOutcome :=
  match stored with
  | none => .notFound
  | some message =>
    let time := (timestampFromStr atParsed nowv).getD nowv
    let prev_event := (nextEvent message).getD 0
    let r := rescheduleMessage time item message
    if r.2 then
      let next_event := (nextEvent r.1).getD 0
      .ok r.2 r.1 [.save (some prev_event) (some next_event), .reload]
    else .ok r.2 r.1 []

/-- The recipient payload written by the cancel handler
(lines 300-307). -/
def canceledStatus : RecipientStatus :=
  .permanentFailure
    { hostname := { entity := [], details := [] },
      response := { code := 0, esc := [0, 0, 0], message := "Delivery canceled.".toList } }

/-- Body of the cancel handler's recipient loop (lines 298-310). -/
def cancelRecipient (item : List Char) (r : QRecipient) : QRecipient × Bool :=
  if listContains r.address_lcase item then
    ({ r with status := canceledStatus }, true)
  else (r, false)

/-- Indexed map with explicit starting index, mirroring
`iter_mut().enumerate()`. -/
def mapWithIdx (f : Nat → α → β) : Nat → List α → List β
  | _, [] => []
  | i, a :: as_ => f i a :: mapWithIdx f (i + 1) as_

/-- Body of the cancel handler's domain recompute (lines 313-337): a
still-pending domain becomes `Completed` when every recipient referencing
it is terminal (counts compared exactly as in the source). -/
def recomputeDomain (rcpts : List QRecipient) (domain_idx : Nat) (d : QDomain) : QDomain :=
  if pendingStatus d.status then
    let total_rcpt := rcpts.countP (fun r => r.domain_idx == domain_idx)
    let total_completed :=
      rcpts.countP (fun r => r.domain_idx == domain_idx && rcptDone r.status)
    if total_rcpt = total_completed then { d with status := .completed () } else d
  else d

/-- The filtered-cancel mutation (lines 298-337): mark matching
recipients failed, then — only when some recipient matched — recompute
the domain statuses. -/
def cancelPass (item : List Char) (m : QMessage) : QMessage × Bool :=
  let found := m.recipients.any (fun r => (cancelRecipient item r).2)
  let m1 := { m with recipients := m.recipients.map (fun r => (cancelRecipient item r).1) }
  if found then
    ({ m1 with domains := mapWithIdx (fun i d => recomputeDomain m1.recipients i d) 0 m1.domains },
     true)
  else (m1, false)

/-- The DELETE `messages/{id}` handler body (lines 287-366) after the
message lookup.  With a filter: cancel matching recipients, recompute
domains, then either re-save the record — the source passes
`(next_event, prev_event)` to `save_changes` here — or remove it when no
domain is pending.  Without a filter: remove the record outright. -/
def handleCancelCore (item : Option (List Char)) (stored : Option QMessage) : MutOutcome :=
  match stored with
  | none => .notFound
  | some message =>
    let prev_event := (nextEvent message).getD 0
    match item with
    | some it =>
      let r := cancelPass it message
      if r.2 then
        if r.1.domains.any (fun d => pendingStatus d.status) then
          let next_event := (nextEvent r.1).getD 0
          .ok r.2 r.1 [.save (some next_event) (some prev_event)]
        else .ok r.2 r.1 [.remove prev_event]
      else .ok r.2 r.1 []
    | none => .ok true message [.remove prev_event]

/-- The API-facing `Recipient` struct (lines 84-90). -/
structure MRecipient where
  address : List Char
  status : Status (List Char) (List Char)
  orcpt : Option (List Char)
deriving DecidableEq

/-- The API-facing `Domain` struct (lines 66-82); datetimes are modelled
by their timestamps. -/
structure MDomain where
  name : List Char
  status : Status (List Char) (List Char)
  recipients : List MRecipient
  retry_num : Nat
  next_retry : Option Nat
  next_notify : Option Nat
  expires : Nat
deriving DecidableEq

/-- The API-facing `Message` struct (lines 50-64). -/
structure MMessage where
  id : Nat
  return_path : List Char
  domains : List MDomain
  created : Nat
  size : Nat
  priority : Int
  env_id : Option (List Char)
deriving DecidableEq

/-- Domain-status view conversion (lines 521-530); the smtp `Error`
payload is already modelled by its display string. -/
def statusToView : DomainStatus → Status (List Char) (List Char)
  | .scheduled => .scheduled
  | .completed _ => .completed []
  | .temporaryFailure s => .temporaryFailure s
  | .permanentFailure s => .permanentFailure s

/-- Recipient-status view conversion (lines 544-555).  Modelled from the
spec: `Display` for `smtp_proto::Response` lives outside the extracted
sources and is modelled as the response's message text. -/
def rcptStatusToView : RecipientStatus → Status (List Char) (List Char)
  | .scheduled => .scheduled
  | .completed hr => .completed hr.response.message
  | .temporaryFailure hr => .temporaryFailure hr.response.message
  | .permanentFailure hr => .permanentFailure hr.response.message

/-- `From<&queue::Message> for Message` (lines 504-564): the management
view of a stored record; recipients are nested under their domain via
`domain_idx`; `next_notify` is reported only while still in the future. -/
def mgmtOfQueue (nowv : Nat) (m : QMessage) : MMessage :=
  { id := m.id
    return_path := m.return_path
    created := m.created
    size := m.size
    priority := m.priority
    env_id := m.env_id
    domains :=
      mapWithIdx
        (fun idx domain =>
          { name := domain.domain
            status := statusToView domain.status
            retry_num := domain.retry.inner
            next_retry := some domain.retry.due
            next_notify := if nowv < domain.notify.due then some domain.notify.due else none
            recipients :=
              (m.recipients.filter (fun r => r.domain_idx == idx)).map
                (fun r =>
                  { address := r.address
                    status := rcptStatusToView r.status
                    orcpt := r.orcpt })
            expires := domain.expires })
        0 m.domains }

/-- `queue_id.parse().unwrap_or_default()` (lines 229, 249, 290): a
message-id path element that fails to parse as a `u64` defaults to 0. -/
def parsedQueueId (s : List Char) : Nat :=
  (parseU64 s).getD 0

/-- GET `messages/{id}` (lines 226-239): look the id up in the store and
return the management view, `none` for `not_found`. -/
def getMessageEndpoint (nowv : Nat) (store : Nat → Option QMessage) (idStr : List Char) :
    Option MMessage :=
  (store (parsedQueueId idStr)).map (mgmtOfQueue nowv)

/-- PATCH `messages/{id}` (lines 240-286) including the id parse. -/
def rescheduleEndpoint (nowv : Nat) (atParsed : Option Nat) (item : Option (List Char))
    (store : Nat → Option QMessage) (idStr : List Char) : MutOutcome :=
  handleRescheduleCore nowv atParsed item (store (parsedQueueId idStr))

/-- DELETE `messages/{id}` (lines 287-366) including the id parse. -/
def cancelEndpoint (item : Option (List Char)) (store : Nat → Option QMessage)
    (idStr : List Char) : MutOutcome :=
  handleCancelCore item (store (parsedQueueId idStr))

/-- The pagination loop shared (verbatim, lines 186-202 and 408-425) by
the two listing handlers: `offset` entries of the matching stream are
skipped, then up to `limit` of them are returned (all of them when
`limit == 0`), while `total` counts every match.  The third `Nat`
argument is `total_returned`. -/
def pageLoop (pred : α → Bool) (build : α → β) (limit : Nat) :
    List α → Nat → Nat → List β × Nat
  | [], _, _ => ([], 0)
  | e :: es, offset, tr =>
    if pred e then
      if offset = 0 then
        if limit = 0 || tr < limit then
          let r := pageLoop pred build limit es 0 (tr + 1)
          (build e :: r.1, r.2 + 1)
        else
          let r := pageLoop pred build limit es 0 tr
          (r.1, r.2 + 1)
      else
        let r := pageLoop pred build limit es (offset - 1) tr
        (r.1, r.2 + 1)
    else pageLoop pred build limit es offset tr

/-- The message-list filter (lines 144-185): no filter matches
everything; `text` checks sender and recipients and overrides
`from`/`to`; `before`/`after` compare the next delivery event. -/
def messageMatches (nowv : Nat) (text from_ to_ : Option (List Char))
    (before after : Option Nat) (e : Nat × QMessage) : Bool :=
  let message := e.2
  let has_filters :=
    text.isSome || from_.isSome || to_.isSome || before.isSome || after.isSome
  !has_filters ||
    ((match text with
      | some t =>
        listContains message.return_path t ||
          message.recipients.any (fun r => listContains r.address_lcase t)
      | none =>
        (match from_ with
         | some f => listContains message.return_path f
         | none => true) &&
        (match to_ with
         | some t => message.recipients.any (fun r => listContains r.address_lcase t)
         | none => true)) &&
      (match before with
       | some b => nextDeliveryEvent nowv message < b
       | none => true) &&
      (match after with
       | some a => a < nextDeliveryEvent nowv message
       | none => true))

/-- One item of the message-list result: a bare id or (with `values`) a
full management record. -/
inductive MsgItem where
  | id (i : Nat)
  | record (m : MMessage)
deriving DecidableEq

/-- GET `messages` (lines 130-225): iterate the message range in order,
filter, and paginate with `offset = (page - 1) * limit` (`Nat`
subtraction is Rust's `saturating_sub`).  Entries are the `(key id,
record)` pairs delivered by the store's range scan. -/
def listMessages (nowv : Nat) (text from_ to_ : Option (List Char)) (before after : Option Nat)
    (page limit : Nat) (values : Bool) (entries : List (Nat × QMessage)) :
    List MsgItem × Nat :=
  pageLoop (messageMatches nowv text from_ to_ before after)
    (fun e => if values then .record (mgmtOfQueue nowv e.2) else .id e.1)
    limit entries ((page - 1) * limit) 0

/-- `type` query parameter decoding (lines 369-373): `dmarc` ↦ class 0,
`tls` ↦ class 1, anything else means no type filter. -/
def parseTypeParam (t : Option (List Char)) : Option Nat :=
  t.bind (fun s =>
    if s = "dmarc".toList then some 0
    else if s = "tls".toList then some 1
    else none)

/-- Modelled from the spec: a persisted report-header key as delivered by
the store's range scan — the class discriminator byte (0 = DMARC,
1 = TLS, read by the handler as the key's last byte) together with the
decoded `ReportEvent`; the byte codec itself lives in the store crate,
outside the extracted sources. -/
structure RKey where
  classByte : Nat
  event : ReportEvent
deriving DecidableEq

/-- The report-list filter (lines 404-408): class byte equal to the
requested type (when given), header `seq_id` nonzero, and domain
containing the (pre-lowercased) `domain` parameter. -/
def reportMatches (type_ : Option Nat) (domainF : Option (List Char)) (k : RKey) : Bool :=
  (match type_ with
   | none => true
   | some t => t == k.classByte) &&
    (k.event.seq_id != 0) &&
    (match domainF with
     | none => true
     | some d => listContains k.event.domain d)

/-- The external id string pushed for one matching key
(lines 411-418). -/
def reportItem (k : RKey) : List Char :=
  (queue_id
    (if k.classByte = 0 then .DmarcReportHeader k.event else .TlsReportHeader k.event)).getD []

/-- GET `reports` (lines 367-441): filter and paginate the scanned
report-header keys, returning external id strings. -/
def listReports (typeParam : Option (List Char)) (domainF : Option (List Char))
    (page limit : Nat) (keys : List RKey) : List (List Char) × Nat :=
  pageLoop (reportMatches (parseTypeParam typeParam) domainF) reportItem
    limit keys ((page - 1) * limit) 0

/-- The `Report` JSON view (lines 94-119, 566-588), one shape for both
classes; datetimes are modelled by their timestamps and the assembled
report body is a type parameter supplied by the collaborator. -/
structure ReportViewBody (α : Type) where
  id : List Char
  domain : List Char
  range_from : Nat
  range_to : Nat
  report : α
  rua : List (List Char)
deriving DecidableEq

/-- `Report::dmarc` / `Report::tls` (lines 566-588): `range_from` is the
header's `seq_id`, `range_to` its `due`, `id` its external id string. -/
def reportViewOf (q : QueueClass) (e : ReportEvent) (rep : α) (rua : List (List Char)) :
    ReportViewBody α :=
  { id := (queue_id q).getD []
    domain := e.domain
    range_from := e.seq_id
    range_to := e.due
    report := rep
    rua := rua }

/-- The GET `reports/{id}` result: a DMARC or TLS report view. -/
inductive ReportView (α β : Type) where
  | dmarc (v : ReportViewBody α)
  | tls (v : ReportViewBody β)
deriving DecidableEq

/-- GET `reports/{id}` (lines 442-478): decode the external id; hand the
event to the matching report-assembly collaborator (modelled as the
function arguments `genD`/`genT`, `none` covering both `Ok(None)` and
`Err`); any failure yields `not_found` (`none`). -/
def handleGetReport {α β : Type} (genD : ReportEvent → Option (α × List (List Char)))
    (genT : ReportEvent → Option (β × List (List Char))) (idStr : List Char) :
    Option (ReportView α β) :=
  match parse_queued_report_id idStr with
  | some (QueueClass.DmarcReportHeader event) =>
    match genD event with
    | some (rep, rua) => some (.dmarc (reportViewOf (.DmarcReportHeader event) event rep rua))
    | none => none
  | some (QueueClass.TlsReportHeader event) =>
    match genT event with
    | some (rep, rua) => some (.tls (reportViewOf (.TlsReportHeader event) event rep rua))
    | none => none
  | some _ => none
  | none => none

/-- Deletions requested from the report collaborators
(lines 482-487). -/
inductive RAction where
  | deleteDmarc (e : ReportEvent)
  | deleteTls (es : List ReportEvent)
deriving DecidableEq

/-- DELETE `reports/{id}` (lines 479-498): decode the external id and
request the matching deletion, responding `true`; an undecodable id
yields `not_found` (`none`). -/
def handleDeleteReport (idStr : List Char) : Option (List RAction) :=
  match parse_queued_report_id idStr with
  | some (QueueClass.DmarcReportHeader e) => some [.deleteDmarc e]
  | some (QueueClass.TlsReportHeader e) => some [.deleteTls [e]]
  | some _ => some []
  | none => none

/-- Scenario fixture: one pending domain with `retry.due = 0` (T = 0) and
`expires = 3600`. -/
def msgA : QMessage :=
  { id := 1, created := 0, return_path := [], recipients := [],
    domains :=
      [{ domain := "example.org".toList, retry := { due := 0, inner := 0 },
         notify := { due := 0, inner := 0 }, expires := 3600, status := .scheduled }],
    size := 100, priority := 0, env_id := none }

/-- Fixture for the out-of-range reschedule: pending domain due at 50,
expiring at 2000, with a notify at 60. -/
def msgB : QMessage :=
  { id := 7, created := 0, return_path := "s@ex.org".toList, recipients := [],
    domains :=
      [{ domain := "ex.org".toList, retry := { due := 50, inner := 0 },
         notify := { due := 60, inner := 0 }, expires := 2000, status := .scheduled }],
    size := 100, priority := 0, env_id := none }

/-- Scenario C fixture: one pending domain with two pending
recipients. -/
def msgC : QMessage :=
  { id := 3, created := 0, return_path := "s@ex.org".toList,
    recipients :=
      [{ domain_idx := 0, address := "a@example.org".toList,
         address_lcase := "a@example.org".toList, status := .scheduled, orcpt := none },
       { domain_idx := 0, address := "b@example.org".toList,
         address_lcase := "b@example.org".toList, status := .scheduled, orcpt := none }],
    domains :=
      [{ domain := "example.org".toList, retry := { due := 100, inner := 0 },
         notify := { due := 300, inner := 0 }, expires := 400, status := .scheduled }],
    size := 100, priority := 0, env_id := none }

/-- Fixture for the no-matching-recipient cancel: the domain is still
`Scheduled` although its only recipient is already `Completed`. -/
def msgD : QMessage :=
  { id := 4, created := 0, return_path := "s@ex.org".toList,
    recipients :=
      [{ domain_idx := 0, address := "ab@example.org".toList,
         address_lcase := "ab@example.org".toList,
         status := .completed { hostname := "mx".toList,
                                response := { code := 250, esc := [2, 0, 0], message := "ok".toList } },
         orcpt := none }],
    domains :=
      [{ domain := "example.org".toList, retry := { due := 100, inner := 0 },
         notify := { due := 300, inner := 0 }, expires := 400, status := .scheduled }],
    size := 100, priority := 0, env_id := none }

/-- Fixture for the save-argument-order bug: two pending domains whose
next events differ (100 and 200), one recipient each. -/
def msgE : QMessage :=
  { id := 5, created := 0, return_path := "s@ex.org".toList,
    recipients :=
      [{ domain_idx := 0, address := "a@a.org".toList, address_lcase := "a@a.org".toList,
         status := .scheduled, orcpt := none },
       { domain_idx := 1, address := "b@b.org".toList, address_lcase := "b@b.org".toList,
         status := .scheduled, orcpt := none }],
    domains :=
      [{ domain := "a.org".toList, retry := { due := 100, inner := 0 },
         notify := { due := 300, inner := 0 }, expires := 400, status := .scheduled },
       { domain := "b.org".toList, retry := { due := 200, inner := 0 },
         notify := { due := 300, inner := 0 }, expires := 400, status := .scheduled }],
    size := 100, priority := 0, env_id := none }

/-- 15 DMARC report-header keys for the pagination scenario. -/
def keys15 : List RKey :=
  (List.range 15).map
    (fun i => { classByte := 0, event := { due := 100 + i, policy_hash := 1, seq_id := 7, domain := "dom.org".toList } })

/-- A valid `ReportEvent`: the three numeric fields fit in a `u64` (they
are `u64` in the source) and the domain name does not contain the
delimiter `'!'` (hostnames never do). -/
def validEvent (h : ReportEvent) : Prop :=
  h.policy_hash < 2 ^ 64 ∧ h.seq_id < 2 ^ 64 ∧ h.due < 2 ^ 64 ∧ ∀ c ∈ h.domain, c ≠ '!'

instance (e : ReportEvent) : Decidable (validEvent e) := by
  unfold validEvent; infer_instance

/-- Validity of a `QueueClass` value for external-id purposes. -/
def validQueueId : QueueClass → Prop
  | .Message _ => True
  | .DmarcReportHeader e => validEvent e
  | .TlsReportHeader e => validEvent e

instance (q : QueueClass) : Decidable (validQueueId q) := by
  unfold validQueueId
  cases q <;> infer_instance

/-- The malformed external-report-id shapes named by the spec: a missing
field (fewer than five segments), a non-numeric `policy_hash`, `seq_id`
or `due`, or a class tag outside d, t. -/
def malformedParts : List (List Char) → Bool
  | t :: _ :: p :: q :: u :: _ =>
    (parseU64 p).isNone || (parseU64 q).isNone || (parseU64 u).isNone ||
      (!(t == ['d']) && !(t == ['t']))
  | _ => true

theorem splitBang_ne_nil (s : List Char) : splitBang s ≠ [] := by
  cases s with
  | nil => simp [splitBang]
  | cons c cs =>
    by_cases h : c = '!'
    · simp [splitBang, h]
    · simp only [splitBang, if_neg h]
      cases splitBang cs <;> simp

theorem splitBang_no_delim (xs : List Char) (h : ∀ c ∈ xs, c ≠ '!') :
    splitBang xs = [xs] := by
  induction xs with
  | nil => rfl
  | cons c cs ih =>
    have hc : c ≠ '!' := h c (List.mem_cons_self c cs)
    have ih2 : splitBang cs = [cs] := ih (fun a ha => h a (List.mem_cons_of_mem c ha))
    simp [splitBang, if_neg hc, ih2]

theorem splitBang_append (xs ys : List Char) (h : ∀ c ∈ xs, c ≠ '!') :
    splitBang (xs ++ '!' :: ys) = xs :: splitBang ys := by
  induction xs with
  | nil => simp [splitBang]
  | cons c cs ih =>
    have hc : c ≠ '!' := h c (List.mem_cons_self c cs)
    have ih2 := ih (fun a ha => h a (List.mem_cons_of_mem c ha))
    have hstep : (c :: cs) ++ '!' :: ys = c :: (cs ++ '!' :: ys) := rfl
    rw [hstep]
    simp only [splitBang, if_neg hc, ih2]

theorem digitChar_spec (d : Nat) (h : d < 10) :
    digitVal (digitChar d) = some d ∧ digitChar d ≠ '!' ∧ digitChar d ≠ '+' := by
  interval_cases d <;> exact ⟨by decide, by decide, by decide⟩

theorem natCharsAux_mem (fuel n : Nat) :
    ∀ c ∈ natCharsAux fuel n, ∃ d, d < 10 ∧ c = digitChar d := by
  induction fuel generalizing n with
  | zero => simp [natCharsAux]
  | succ f ih =>
    intro c hc
    by_cases h : n < 10
    · simp only [natCharsAux, if_pos h, List.mem_singleton] at hc
      exact ⟨n, h, hc⟩
    · simp only [natCharsAux, if_neg h, List.mem_append, List.mem_singleton] at hc
      rcases hc with hc | hc
      · exact ih (n / 10) c hc
      · exact ⟨n % 10, Nat.mod_lt n (by omega), hc⟩

theorem natChars_mem (n : Nat) : ∀ c ∈ natChars n, ∃ d, d < 10 ∧ c = digitChar d :=
  natCharsAux_mem (n + 1) n

theorem natChars_no_delim (n : Nat) : ∀ c ∈ natChars n, c ≠ '!' := by
  intro c hc
  obtain ⟨d, hd, rfl⟩ := natChars_mem n c hc
  exact (digitChar_spec d hd).2.1

theorem natCharsAux_fuel (f1 f2 n : Nat) (h1 : n < f1) (h2 : n < f2) :
    natCharsAux f1 n = natCharsAux f2 n := by
  induction f1 generalizing f2 n with
  | zero => omega
  | succ f ih =>
    cases f2 with
    | zero => omega
    | succ g =>
      by_cases h : n < 10
      · simp [natCharsAux, if_pos h]
      · have hdiv : n / 10 < n := Nat.div_lt_self (by omega) (by omega)
        simp only [natCharsAux, if_neg h]
        rw [ih g (n / 10) (by omega) (by omega)]

theorem natChars_small (n : Nat) (h : n < 10) : natChars n = [digitChar n] := by
  simp [natChars, natCharsAux, if_pos h]

theorem natChars_step (n : Nat) (h : ¬n < 10) :
    natChars n = natChars (n / 10) ++ [digitChar (n % 10)] := by
  have hdiv : n / 10 < n := Nat.div_lt_self (by omega) (by omega)
  simp only [natChars, natCharsAux, if_neg h]
  rw [natCharsAux_fuel n (n / 10 + 1) (n / 10) (by omega) (by omega)]
  simp only [natCharsAux]

theorem natChars_ne_nil (n : Nat) : natChars n ≠ [] := by
  by_cases h : n < 10
  · simp [natChars_small n h]
  · simp [natChars_step n h]

theorem digitsValAux_append (xs ys : List Char) (acc : Nat) :
    digitsValAux (xs ++ ys) acc =
      (digitsValAux xs acc).bind (fun a => digitsValAux ys a) := by
  induction xs generalizing acc with
  | nil => simp [digitsValAux]
  | cons c cs ih =>
    simp only [List.cons_append, digitsValAux]
    cases digitVal c with
    | none => simp
    | some d => simp [ih]

theorem digitsValAux_natChars (n : Nat) :
    ∀ acc, digitsValAux (natChars n) acc = some (acc * 10 ^ (natChars n).length + n) := by
  induction n using Nat.strong_induction_on with
  | _ n ih =>
    intro acc
    by_cases h : n < 10
    · rw [natChars_small n h]
      simp [digitsValAux, (digitChar_spec n h).1]
    · have hdiv : n / 10 < n := Nat.div_lt_self (by omega) (by omega)
      rw [natChars_step n h, digitsValAux_append, ih (n / 10) hdiv acc]
      have hm := (digitChar_spec (n % 10) (Nat.mod_lt n (by omega))).1
      have hbind :
          ((some (acc * 10 ^ (natChars (n / 10)).length + n / 10)).bind
              fun a => digitsValAux [digitChar (n % 10)] a) =
            digitsValAux [digitChar (n % 10)]
              (acc * 10 ^ (natChars (n / 10)).length + n / 10) := rfl
      rw [hbind]
      simp only [digitsValAux, hm]
      have hgoal :
          (acc * 10 ^ (natChars (n / 10)).length + n / 10) * 10 + n % 10 =
            acc * 10 ^ ((natChars (n / 10)).length + 1) + n := by
        have hdm : 10 * (n / 10) + n % 10 = n := Nat.div_add_mod n 10
        calc (acc * 10 ^ (natChars (n / 10)).length + n / 10) * 10 + n % 10
            = acc * (10 ^ (natChars (n / 10)).length * 10) + (10 * (n / 10) + n % 10) := by
              ring
          _ = acc * 10 ^ ((natChars (n / 10)).length + 1) + n := by rw [hdm, pow_succ]
      rw [List.length_append, List.length_singleton, hgoal]

theorem parseU64_natChars (n : Nat) (h : n < 2 ^ 64) : parseU64 (natChars n) = some n := by
  obtain ⟨c, cs, hcc⟩ : ∃ c cs, natChars n = c :: cs := by
    cases hn : natChars n with
    | nil => exact absurd hn (natChars_ne_nil n)
    | cons c cs => exact ⟨c, cs, rfl⟩
  have hplus : c ≠ '+' := by
    have hc : c ∈ natChars n := by rw [hcc]; exact List.mem_cons_self c cs
    obtain ⟨d, hd, rfl⟩ := natChars_mem n c hc
    exact (digitChar_spec d hd).2.2
  have hstrip : stripPlus (natChars n) = natChars n := by
    rw [hcc]; simp [stripPlus, if_neg hplus]
  have hval := digitsValAux_natChars n 0
  simp only [Nat.zero_mul, Nat.zero_add] at hval
  rw [hcc] at hval
  unfold parseU64
  rw [hstrip, hcc]
  simp only [digitsValAux, Nat.zero_mul, Nat.zero_add] at hval ⊢
  rw [hval]
  exact if_pos h

theorem splitBang_encodeReport (tag : Char) (h : ReportEvent) (htag : tag ≠ '!')
    (hdom : ∀ c ∈ h.domain, c ≠ '!') :
    splitBang (encodeReport tag h) =
      [[tag], h.domain, natChars h.policy_hash, natChars h.seq_id, natChars h.due] := by
  unfold encodeReport
  rw [splitBang_append [tag] _ (by intro c hc; simp at hc; subst hc; exact htag)]
  rw [splitBang_append h.domain _ hdom]
  rw [splitBang_append (natChars h.policy_hash) _ (natChars_no_delim _)]
  rw [splitBang_append (natChars h.seq_id) _ (natChars_no_delim _)]
  rw [splitBang_no_delim (natChars h.due) (natChars_no_delim _)]

theorem parse_encode_dmarc (h : ReportEvent) (hv : validEvent h) :
    parse_queued_report_id (encodeReport 'd' h) = some (.DmarcReportHeader h) := by
  obtain ⟨h1, h2, h3, h4⟩ := hv
  unfold parse_queued_report_id
  rw [splitBang_encodeReport 'd' h (by decide) h4]
  simp only [parseU64_natChars _ h1, parseU64_natChars _ h2, parseU64_natChars _ h3]
  simp

theorem parse_encode_tls (h : ReportEvent) (hv : validEvent h) :
    parse_queued_report_id (encodeReport 't' h) = some (.TlsReportHeader h) := by
  obtain ⟨h1, h2, h3, h4⟩ := hv
  unfold parse_queued_report_id
  rw [splitBang_encodeReport 't' h (by decide) h4]
  simp only [parseU64_natChars _ h1, parseU64_natChars _ h2, parseU64_natChars _ h3]
  simp

theorem rescheduleDomain_fst (t : Nat) (item : Option (List Char)) (d : QDomain) :
    (rescheduleDomain t item d).1 =
      if domainMatches item d then
        { d with retry := { d.retry with due := t },
                 expires := if t < d.expires then t + 10 else d.expires }
      else d := by
  unfold rescheduleDomain
  by_cases h : domainMatches item d <;> simp [h]

theorem rescheduleDomain_snd (t : Nat) (item : Option (List Char)) (d : QDomain) :
    (rescheduleDomain t item d).2 = domainMatches item d := by
  unfold rescheduleDomain
  by_cases h : domainMatches item d <;> simp [h]

theorem rescheduleDomain_frame (t : Nat) (item : Option (List Char)) (d : QDomain) :
    (rescheduleDomain t item d).1.status = d.status ∧
      (rescheduleDomain t item d).1.domain = d.domain ∧
      (rescheduleDomain t item d).1.notify = d.notify ∧
      (rescheduleDomain t item d).1.retry.inner = d.retry.inner := by
  unfold rescheduleDomain
  by_cases h : domainMatches item d <;> simp [h]

theorem domainMatches_rescheduleDomain (t : Nat) (item : Option (List Char)) (d : QDomain) :
    domainMatches item (rescheduleDomain t item d).1 = domainMatches item d := by
  unfold domainMatches
  rw [(rescheduleDomain_frame t item d).1, (rescheduleDomain_frame t item d).2.1]

theorem rescheduleDomain_idem (t : Nat) (item : Option (List Char)) (d : QDomain) :
    (rescheduleDomain t item (rescheduleDomain t item d).1).1 =
      (rescheduleDomain t item d).1 := by
  by_cases h : domainMatches item d
  · have h2 : domainMatches item (rescheduleDomain t item d).1 = true := by
      rw [domainMatches_rescheduleDomain, h]
    rw [rescheduleDomain_fst t item (rescheduleDomain t item d).1, if_pos h2,
        rescheduleDomain_fst t item d, if_pos h]
    by_cases he : t < d.expires
    · simp [if_pos he, Nat.lt_succ_of_lt, show t < t + 10 by omega]
    · simp [if_neg he, if_neg he]
  · rw [rescheduleDomain_fst t item d, if_neg (by simp [h]),
        rescheduleDomain_fst t item d, if_neg (by simp [h])]

theorem rescheduleMessage_domains (t : Nat) (item : Option (List Char)) (m : QMessage) :
    (rescheduleMessage t item m).1.domains =
      m.domains.map (fun d => (rescheduleDomain t item d).1) := rfl

theorem rescheduleMessage_found (t : Nat) (item : Option (List Char)) (m : QMessage) :
    (rescheduleMessage t item m).2 = m.domains.any (fun d => domainMatches item d) := by
  show m.domains.any (fun d => (rescheduleDomain t item d).2) =
    m.domains.any (fun d => domainMatches item d)
  exact congrArg m.domains.any (funext fun d => rescheduleDomain_snd t item d)

theorem cancelRecipient_fst (it : List Char) (r : QRecipient) :
    (cancelRecipient it r).1 =
      if listContains r.address_lcase it then { r with status := canceledStatus } else r := by
  unfold cancelRecipient
  by_cases h : listContains r.address_lcase it <;> simp [h]

theorem cancelRecipient_snd (it : List Char) (r : QRecipient) :
    (cancelRecipient it r).2 = listContains r.address_lcase it := by
  unfold cancelRecipient
  by_cases h : listContains r.address_lcase it <;> simp [h]

theorem mapWithIdx_getElem? (f : Nat → α → β) (l : List α) :
    ∀ (k i : Nat), (mapWithIdx f k l)[i]? = (l[i]?).map (f (k + i)) := by
  induction l with
  | nil => intro k i; simp [mapWithIdx]
  | cons a as_ ih =>
    intro k i
    cases i with
    | zero => simp [mapWithIdx]
    | succ j =>
      simp only [mapWithIdx, List.getElem?_cons_succ, ih (k + 1) j]
      have heq : k + 1 + j = k + (j + 1) := by omega
      rw [heq]

theorem countP_and_le (l : List α) (p q : α → Bool) :
    l.countP (fun a => p a && q a) ≤ l.countP p := by
  induction l with
  | nil => simp
  | cons a as_ ih =>
    simp only [List.countP_cons]
    cases hpa : p a <;> cases hqa : q a <;> simp [hpa, hqa] <;> omega

theorem countP_and_eq_iff (l : List α) (p q : α → Bool) :
    l.countP p = l.countP (fun a => p a && q a) ↔
      ∀ a ∈ l, p a = true → q a = true := by
  induction l with
  | nil => simp
  | cons a as_ ih =>
    have hle := countP_and_le as_ p q
    rw [List.countP_cons, List.countP_cons]
    simp only [List.mem_cons, forall_eq_or_imp]
    cases hpa : p a
    · simpa [hpa] using ih
    · cases hqa : q a
      · simp [hpa, hqa]
        omega
      · simpa [hpa, hqa] using ih

theorem pageLoop_eq (pred : α → Bool) (build : α → β) (limit : Nat) :
    ∀ (es : List α) (offset tr : Nat),
      pageLoop pred build limit es offset tr =
        ((if limit = 0 then ((es.filter pred).map build).drop offset
          else (((es.filter pred).map build).drop offset).take (limit - tr)),
         (es.filter pred).length) := by
  intro es
  induction es with
  | nil => intro offset tr; simp [pageLoop]
  | cons e es ih =>
    intro offset tr
    by_cases hp : pred e
    · by_cases ho : offset = 0
      · subst ho
        by_cases hl : limit = 0
        · subst hl
          simp [pageLoop, hp, ih]
        · by_cases htr : tr < limit
          · have hsub : limit - tr = (limit - (tr + 1)) + 1 := by omega
            simp [pageLoop, hp, ih, hl, htr, hsub, List.take_succ_cons]
          · have hz : limit - tr = 0 := by omega
            simp [pageLoop, hp, ih, hl, htr, hz]
      · obtain ⟨k, rfl⟩ : ∃ k, offset = k + 1 := ⟨offset - 1, by omega⟩
        simp [pageLoop, hp, ih, List.drop_succ_cons]
    · simp [pageLoop, hp, ih]

theorem statusNe_completed (s : DomainStatus) (h : pendingStatus s = true) :
    s ≠ Status.completed () := by
  cases s <;> simp_all [pendingStatus]

theorem recomputeDomain_spec (rcpts : List QRecipient) (i : Nat) (d : QDomain)
    (hpend : pendingStatus d.status = true) :
    ((recomputeDomain rcpts i d).status = Status.completed () ↔
      ∀ r ∈ rcpts, r.domain_idx = i → rcptDone r.status = true) := by
  unfold recomputeDomain
  rw [if_pos hpend]
  have hiff := countP_and_eq_iff rcpts (fun r => r.domain_idx == i)
    (fun r => rcptDone r.status)
  by_cases hc : rcpts.countP (fun r => r.domain_idx == i) =
      rcpts.countP (fun r => r.domain_idx == i && rcptDone r.status)
  · rw [if_pos hc]
    simp only [true_iff]
    intro r hr hri
    exact (hiff.mp hc) r hr (by simp [hri])
  · rw [if_neg hc]
    simp only [statusNe_completed d.status hpend, false_iff]
    intro hall
    exact hc (hiff.mpr (fun r hr hri => hall r hr (by simpa using hri)))

theorem cancelPass_recipients (it : List Char) (m : QMessage) :
    (cancelPass it m).1.recipients =
      m.recipients.map (fun r => (cancelRecipient it r).1) := by
  unfold cancelPass
  by_cases h : m.recipients.any (fun r => (cancelRecipient it r).2) <;> simp [h]

theorem cancelPass_found (it : List Char) (m : QMessage) :
    (cancelPass it m).2 = m.recipients.any (fun r => listContains r.address_lcase it) := by
  have hany : m.recipients.any (fun r => (cancelRecipient it r).2) =
      m.recipients.any (fun r => listContains r.address_lcase it) :=
    congrArg m.recipients.any (funext fun r => cancelRecipient_snd it r)
  rw [← hany]
  unfold cancelPass
  by_cases h : m.recipients.any (fun r => (cancelRecipient it r).2) <;> simp [h]

theorem cancelPass_domains_of_found (it : List Char) (m : QMessage)
    (h : m.recipients.any (fun r => (cancelRecipient it r).2) = true) :
    (cancelPass it m).1.domains =
      mapWithIdx
        (fun i d =>
          recomputeDomain (m.recipients.map (fun r => (cancelRecipient it r).1)) i d)
        0 m.domains := by
  unfold cancelPass
  simp [h]

/-- C4: for every valid `ReportEvent`, decoding the external report id
string produced by encoding it yields the same event and class, and the
encoding is injective: two report headers with the same id string are the
same header. -/
theorem c4_report_id_roundtrip_injective (q q2 : QueueClass) (s s2 : List Char)
    (hq : queue_id q = some s) (hq2 : queue_id q2 = some s2)
    (hv : validQueueId q) (hv2 : validQueueId q2) :
    parse_queued_report_id s = some q ∧ (s = s2 → q = q2) := by
  have hrt : ∀ (q3 : QueueClass) (s3 : List Char), queue_id q3 = some s3 →
      validQueueId q3 → parse_queued_report_id s3 = some q3 := by
    intro q3 s3 hq3 hv3
    cases q3 with
    | Message i => simp [queue_id] at hq3
    | DmarcReportHeader e =>
      simp only [queue_id, Option.some_inj] at hq3
      exact hq3 ▸ parse_encode_dmarc e hv3
    | TlsReportHeader e =>
      simp only [queue_id, Option.some_inj] at hq3
      exact hq3 ▸ parse_encode_tls e hv3
  refine ⟨hrt q s hq hv, fun hss => ?_⟩
  have h1 := hrt q s hq hv
  have h2 := hrt q2 s2 hq2 hv2
  rw [hss] at h1
  rw [h1] at h2
  exact Option.some_inj.mp h2

/-- Witness for C4 at a concrete header: the id string of the DMARC
header (domain ab, policy 1, sequence 2, due 3) decodes back to it, and
coinciding id strings force coinciding headers. -/
theorem c4_witness :
    parse_queued_report_id ("d!ab!1!2!3".toList) =
      some (.DmarcReportHeader { due := 3, policy_hash := 1, seq_id := 2, domain := "ab".toList }) ∧
    ("d!ab!1!2!3".toList = "t!ab!1!2!3".toList →
      QueueClass.DmarcReportHeader { due := 3, policy_hash := 1, seq_id := 2, domain := "ab".toList } =
        QueueClass.TlsReportHeader { due := 3, policy_hash := 1, seq_id := 2, domain := "ab".toList }) :=
  c4_report_id_roundtrip_injective
    (.DmarcReportHeader { due := 3, policy_hash := 1, seq_id := 2, domain := "ab".toList })
    (.TlsReportHeader { due := 3, policy_hash := 1, seq_id := 2, domain := "ab".toList })
    ("d!ab!1!2!3".toList) ("t!ab!1!2!3".toList)
    (by decide) (by decide) (by decide) (by decide)

/-- C6: an external report id string with a missing field, a non-numeric
`policy_hash`, `seq_id` or `due`, or a class tag outside d, t decodes to
no identifier, and the get/delete report handlers respond not-found; the
(total) decoder never crashes. -/
theorem c6_malformed_report_id (s : List Char) (h : malformedParts (splitBang s) = true) :
    parse_queued_report_id s = none ∧
    (∀ (α β : Type) (genD : ReportEvent → Option (α × List (List Char)))
        (genT : ReportEvent → Option (β × List (List Char))),
        handleGetReport genD genT s = none) ∧
    handleDeleteReport s = none := by
  have hp : parse_queued_report_id s = none := by
    unfold parse_queued_report_id
    cases hL : splitBang s with
    | nil => rfl
    | cons t r1 =>
      cases r1 with
      | nil => rfl
      | cons d r2 =>
        cases r2 with
        | nil => rfl
        | cons p r3 =>
          cases r3 with
          | nil => rfl
          | cons q r4 =>
            cases r4 with
            | nil => rfl
            | cons u r5 =>
              rw [hL] at h
              unfold malformedParts at h
              simp only [Bool.or_eq_true, Option.isNone_iff_eq_none, Bool.and_eq_true,
                Bool.not_eq_true', beq_eq_false_iff_ne, ne_eq] at h
              rcases h with ((h | h) | h) | ⟨h1, h2⟩
              · simp [h]
              · cases hP : parseU64 p with
                | none => simp [hP]
                | some vp => simp [hP, h]
              · cases hP : parseU64 p with
                | none => simp [hP]
                | some vp =>
                  cases hQ : parseU64 q with
                  | none => simp [hP, hQ]
                  | some vq => simp [hP, hQ, h]
              · cases hP : parseU64 p with
                | none => simp [hP]
                | some vp =>
                  cases hQ : parseU64 q with
                  | none => simp [hP, hQ]
                  | some vq =>
                    cases hU : parseU64 u with
                    | none => simp [hP, hQ, hU]
                    | some vu => simp [hP, hQ, hU, h1, h2]
  refine ⟨hp, ?_, ?_⟩
  · intro α β genD genT
    unfold handleGetReport
    rw [hp]
  · unfold handleDeleteReport
    rw [hp]

/-- Witness for C6 at a concrete malformed id (non-numeric policy hash):
it decodes to nothing and both report handlers answer not-found. -/
theorem c6_witness :
    parse_queued_report_id ("d!ex!zz!2!3".toList) = none ∧
    (∀ (α β : Type) (genD : ReportEvent → Option (α × List (List Char)))
        (genT : ReportEvent → Option (β × List (List Char))),
        handleGetReport genD genT ("d!ex!zz!2!3".toList) = none) ∧
    handleDeleteReport ("d!ex!zz!2!3".toList) = none :=
  c6_malformed_report_id ("d!ex!zz!2!3".toList) (by decide)

/-- C5: for both listing endpoints the reported total is the number of
matching entries and the items are the page slice starting at index
(page - 1) * limit, at most limit entries long (all of them when the
limit is 0); in particular 15 matching DMARC headers at page 1, limit 10
give total 15 and 10 items. -/
theorem c5_pagination :
    (∀ (nowv : Nat) (text from_ to_ : Option (List Char)) (before after : Option Nat)
        (page limit : Nat) (values : Bool) (entries : List (Nat × QMessage)),
        listMessages nowv text from_ to_ before after page limit values entries =
          ((if limit = 0 then
              ((entries.filter (messageMatches nowv text from_ to_ before after)).map
                  (fun e => if values then MsgItem.record (mgmtOfQueue nowv e.2)
                    else MsgItem.id e.1)).drop ((page - 1) * limit)
            else
              (((entries.filter (messageMatches nowv text from_ to_ before after)).map
                  (fun e => if values then MsgItem.record (mgmtOfQueue nowv e.2)
                    else MsgItem.id e.1)).drop ((page - 1) * limit)).take limit),
           (entries.filter (messageMatches nowv text from_ to_ before after)).length)) ∧
    (∀ (typeParam domainF : Option (List Char)) (page limit : Nat) (keys : List RKey),
        listReports typeParam domainF page limit keys =
          ((if limit = 0 then
              ((keys.filter (reportMatches (parseTypeParam typeParam) domainF)).map
                  reportItem).drop ((page - 1) * limit)
            else
              (((keys.filter (reportMatches (parseTypeParam typeParam) domainF)).map
                  reportItem).drop ((page - 1) * limit)).take limit),
           (keys.filter (reportMatches (parseTypeParam typeParam) domainF)).length)) ∧
    listReports (some ("dmarc".toList)) none 1 10 keys15 = ((keys15.map reportItem).take 10, 15) ∧
    (listReports (some ("dmarc".toList)) none 1 10 keys15).1.length = 10 := by
  refine ⟨?_, ?_, by decide, by decide⟩
  · intro nowv text from_ to_ before after page limit values entries
    unfold listMessages
    rw [pageLoop_eq]
    simp
  · intro typeParam domainF page limit keys
    unfold listReports
    rw [pageLoop_eq]
    simp

/-- C1 counterexample: with retry.due = T = 0 and expires = T + 3600,
rescheduling to at = T + 60 sets expires to 70 (the claim says it stays
3600), and rescheduling to at = T + 7000 leaves expires at 3600 (the
claim says it becomes 7010). -/
theorem c1_counterexample :
    ((rescheduleMessage 60 none msgA).1.domains.map (fun d => d.expires) = [70] ∧
      (70 : Nat) ≠ 3600) ∧
    ((rescheduleMessage 7000 none msgA).1.domains.map (fun d => d.expires) = [3600] ∧
      (3600 : Nat) ≠ 7010) :=
  ⟨⟨by decide, by decide⟩, ⟨by decide, by decide⟩⟩

/-- C1 (amended): rescheduling a pending matching domain sets retry.due
to at and sets expires to at + 10 exactly when the current expires
exceeds at — also shrinking a later expires — leaving expires unchanged
when it is ≤ at; concretely at = T + 60 gives expires T + 70 and
at = T + 7000 leaves expires at T + 3600. -/
theorem c1_reschedule_clamp (t : Nat) (item : Option (List Char)) (m : QMessage)
    (i : Nat) (d : QDomain) (hd : m.domains[i]? = some d)
    (hm : domainMatches item d = true) :
    (rescheduleMessage t item m).1.domains[i]? =
      some { d with retry := { d.retry with due := t },
                    expires := if t < d.expires then t + 10 else d.expires } ∧
    (rescheduleMessage 60 none msgA).1.domains.map
      (fun d => (d.retry.due, d.expires)) = [(60, 70)] ∧
    (rescheduleMessage 7000 none msgA).1.domains.map
      (fun d => (d.retry.due, d.expires)) = [(7000, 3600)] := by
  refine ⟨?_, by decide, by decide⟩
  rw [rescheduleMessage_domains, List.getElem?_map, hd]
  simp [rescheduleDomain_fst, hm]

/-- Witness for C1 at the scenario fixture: domain 0 of msgA rescheduled
to 60 ends with retry.due 60 and expires 70. -/
theorem c1_witness :
    (rescheduleMessage 60 none msgA).1.domains.map
      (fun d => (d.retry.due, d.expires)) = [(60, 70)] :=
  (c1_reschedule_clamp 60 none msgA 0
      { domain := "example.org".toList, retry := { due := 0, inner := 0 },
        notify := { due := 0, inner := 0 }, expires := 3600, status := .scheduled }
      (by decide) (by decide)).2.1

/-- C2 counterexample: with now = 1000, a reschedule to at = 500 (in the
past) is not rejected — the matching domain is mutated (due 1000,
expires 1010), the record is saved and a reload is published. -/
theorem c2_counterexample :
    handleRescheduleCore 1000 (some 500) none (some msgB) =
      .ok true
        { msgB with domains :=
            [{ domain := "ex.org".toList, retry := { due := 1000, inner := 0 },
               notify := { due := 60, inner := 0 }, expires := 1010, status := .scheduled }] }
        [.save (some 50) (some 60), .reload] := by
  decide

/-- C2 (amended): a reschedule whose target time lies in the past is not
rejected; the target falls back to the current time and the operation
proceeds exactly as a reschedule to now. -/
theorem c2_past_at_falls_back (nowv t : Nat) (item : Option (List Char))
    (stored : Option QMessage) (h : t < nowv) :
    handleRescheduleCore nowv (some t) item stored =
      handleRescheduleCore nowv (some nowv) item stored := by
  unfold handleRescheduleCore
  cases stored with
  | none => rfl
  | some m =>
    have h1 : timestampFromStr (some t) nowv = none := by
      show (if nowv ≤ t then some t else none) = none
      rw [if_neg (by omega)]
    have h2 : timestampFromStr (some nowv) nowv = some nowv := by
      show (if nowv ≤ nowv then some nowv else none) = some nowv
      rw [if_pos (le_refl nowv)]
    simp [h1, h2]

/-- Witness for C2: rescheduling msgB to 500 with now = 1000 equals
rescheduling it to 1000. -/
theorem c2_witness :
    handleRescheduleCore 1000 (some 500) none (some msgB) =
      handleRescheduleCore 1000 (some 1000) none (some msgB) :=
  c2_past_at_falls_back 1000 500 none (some msgB) (by decide)

/-- C8: a reschedule touches only retry.due and expires of matching
domains, leaves every other domain field, every non-matching domain, the
recipients and the message metadata unchanged, reports true exactly when
some domain matched, and saves plus publishes a reload exactly when some
domain matched. -/
theorem c8_reschedule_frame (t : Nat) (item : Option (List Char)) (m : QMessage) :
    (rescheduleMessage t item m).1.id = m.id ∧
    (rescheduleMessage t item m).1.created = m.created ∧
    (rescheduleMessage t item m).1.return_path = m.return_path ∧
    (rescheduleMessage t item m).1.recipients = m.recipients ∧
    (rescheduleMessage t item m).1.size = m.size ∧
    (rescheduleMessage t item m).1.priority = m.priority ∧
    (rescheduleMessage t item m).1.env_id = m.env_id ∧
    (∀ i : Nat, (rescheduleMessage t item m).1.domains[i]? =
        (m.domains[i]?).map (fun d =>
          if domainMatches item d then
            { d with retry := { d.retry with due := t },
                     expires := if t < d.expires then t + 10 else d.expires }
          else d)) ∧
    ((rescheduleMessage t item m).2 = true ↔ ∃ d ∈ m.domains, domainMatches item d = true) ∧
    (∀ (nowv : Nat) (atParsed : Option Nat),
        handleRescheduleCore nowv atParsed item (some m) =
          MutOutcome.ok
            (rescheduleMessage ((timestampFromStr atParsed nowv).getD nowv) item m).2
            (rescheduleMessage ((timestampFromStr atParsed nowv).getD nowv) item m).1
            (if (rescheduleMessage ((timestampFromStr atParsed nowv).getD nowv) item m).2 then
              [.save (some ((nextEvent m).getD 0))
                 (some ((nextEvent
                   (rescheduleMessage ((timestampFromStr atParsed nowv).getD nowv) item m).1).getD 0)),
               .reload]
            else [])) := by
  refine ⟨rfl, rfl, rfl, rfl, rfl, rfl, rfl, ?_, ?_, ?_⟩
  · intro i
    rw [rescheduleMessage_domains, List.getElem?_map]
    cases m.domains[i]? with
    | none => rfl
    | some d => simp [rescheduleDomain_fst]
  · rw [rescheduleMessage_found]
    exact List.any_eq_true
  · intro nowv atParsed
    unfold handleRescheduleCore
    by_cases hf : (rescheduleMessage ((timestampFromStr atParsed nowv).getD nowv) item m).2 <;>
      simp [hf]

/-- Witness for C8: at the scenario fixture the reschedule reports
matched and the per-domain update law holds at index 0. -/
theorem c8_witness :
    ((rescheduleMessage 60 none msgA).2 = true ↔
      ∃ d ∈ msgA.domains, domainMatches none d = true) :=
  (c8_reschedule_frame 60 none msgA).2.2.2.2.2.2.2.2.1

/-- C9: rescheduling twice to the same target is idempotent — message and
flag agree with the first call — and both calls report matched whenever
some domain is still pending and passes the filter. -/
theorem c9_reschedule_idempotent (t : Nat) (item : Option (List Char)) (m : QMessage) :
    rescheduleMessage t item (rescheduleMessage t item m).1 = rescheduleMessage t item m ∧
    ((∃ d ∈ m.domains, domainMatches item d = true) →
      (rescheduleMessage t item m).2 = true ∧
      (rescheduleMessage t item (rescheduleMessage t item m).1).2 = true) := by
  have hmaps :
      (m.domains.map (fun d => (rescheduleDomain t item d).1)).map
          (fun d => (rescheduleDomain t item d).1) =
        m.domains.map (fun d => (rescheduleDomain t item d).1) := by
    rw [List.map_map]
    exact List.map_congr_left (fun d _ => rescheduleDomain_idem t item d)
  have hflag : (rescheduleMessage t item (rescheduleMessage t item m).1).2 =
      (rescheduleMessage t item m).2 := by
    rw [rescheduleMessage_found, rescheduleMessage_found, rescheduleMessage_domains,
      List.any_map]
    exact congrArg m.domains.any
      (funext fun d => domainMatches_rescheduleDomain t item d)
  have hmsg : (rescheduleMessage t item (rescheduleMessage t item m).1).1 =
      (rescheduleMessage t item m).1 := by
    have hstep : (rescheduleMessage t item (rescheduleMessage t item m).1).1 =
        { m with
          domains :=
            (m.domains.map (fun d => (rescheduleDomain t item d).1)).map
              (fun d => (rescheduleDomain t item d).1) } := rfl
    rw [hstep, hmaps]
    rfl
  refine ⟨Prod.ext hmsg hflag, fun hex => ?_⟩
  have h1 : (rescheduleMessage t item m).2 = true := by
    rw [rescheduleMessage_found]
    exact List.any_eq_true.mpr hex
  exact ⟨h1, hflag.trans h1⟩

/-- Witness for C9 at the scenario fixture. -/
theorem c9_witness :
    rescheduleMessage 60 none (rescheduleMessage 60 none msgA).1 =
      rescheduleMessage 60 none msgA ∧
    (rescheduleMessage 60 none msgA).2 = true :=
  ⟨(c9_reschedule_idempotent 60 none msgA).1,
   ((c9_reschedule_idempotent 60 none msgA).2 (by decide)).1⟩

/-- C10: a message-id path element that does not parse as a u64 defaults
to id 0, so the get, reschedule and cancel endpoints behave exactly as if
id 0 had been supplied; the store is queried for message 0 and the
request is never rejected as bad input. -/
theorem c10_bad_message_id (s : List Char) (h : parseU64 s = none) :
    parsedQueueId s = 0 ∧
    (∀ (nowv : Nat) (store : Nat → Option QMessage),
        getMessageEndpoint nowv store s = getMessageEndpoint nowv store (natChars 0)) ∧
    (∀ (nowv : Nat) (atParsed : Option Nat) (item : Option (List Char))
        (store : Nat → Option QMessage),
        rescheduleEndpoint nowv atParsed item store s =
          rescheduleEndpoint nowv atParsed item store (natChars 0)) ∧
    (∀ (item : Option (List Char)) (store : Nat → Option QMessage),
        cancelEndpoint item store s = cancelEndpoint item store (natChars 0)) := by
  have h0 : parsedQueueId s = 0 := by
    unfold parsedQueueId
    rw [h]
    rfl
  have h1 : parsedQueueId (natChars 0) = 0 := by
    unfold parsedQueueId
    rw [parseU64_natChars 0 (by norm_num)]
    rfl
  refine ⟨h0, ?_, ?_, ?_⟩
  · intro nowv store
    unfold getMessageEndpoint
    rw [h0, h1]
  · intro nowv atParsed item store
    unfold rescheduleEndpoint
    rw [h0, h1]
  · intro item store
    unfold cancelEndpoint
    rw [h0, h1]

/-- Witness for C10 at the unparsable id string abc. -/
theorem c10_witness :
    parsedQueueId ("abc".toList) = 0 ∧
    getMessageEndpoint 0 (fun _ => none) ("abc".toList) =
      getMessageEndpoint 0 (fun _ => none) (natChars 0) :=
  ⟨(c10_bad_message_id ("abc".toList) (by decide)).1,
   (c10_bad_message_id ("abc".toList) (by decide)).2.1 0 (fun _ => none)⟩

/-- C3 counterexample: cancelling msgD (one Scheduled domain whose only
recipient is already Completed) with a filter matching no recipient
leaves the domain Scheduled — although every recipient referencing it is
terminal, so the claim's completion rule demands Completed — and nothing
is persisted or deleted. -/
theorem c3_counterexample :
    handleCancelCore (some ("zz".toList)) (some msgD) =
      .ok false (cancelPass ("zz".toList) msgD).1 [] ∧
    (cancelPass ("zz".toList) msgD).1.domains.map (fun d => d.status) = [Status.scheduled] ∧
    (∀ r ∈ (cancelPass ("zz".toList) msgD).1.recipients,
      r.domain_idx = 0 → rcptDone r.status = true) ∧
    (Status.scheduled : DomainStatus) ≠ Status.completed () :=
  ⟨by decide, by decide, by decide, by decide⟩

/-- C3 (amended): for a cancel whose filter matches at least one
recipient, every matching recipient becomes PermanentFailure with the
delivery-canceled response, each previously pending domain becomes
Completed iff every recipient referencing it is terminal, and the message
is removed from storage iff no domain remains pending, the updated record
being re-saved otherwise; when no recipient matches, the handler reports
false and performs no storage action. -/
theorem c3_cancel_filter (it : List Char) (m : QMessage)
    (hf : ∃ r ∈ m.recipients, listContains r.address_lcase it = true) :
    (∀ i : Nat, (cancelPass it m).1.recipients[i]? =
        (m.recipients[i]?).map (fun r =>
          if listContains r.address_lcase it then { r with status := canceledStatus }
          else r)) ∧
    (∀ (i : Nat) (d : QDomain), m.domains[i]? = some d → pendingStatus d.status = true →
        ∃ d2, (cancelPass it m).1.domains[i]? = some d2 ∧
          (d2.status = Status.completed () ↔
            ∀ r ∈ (cancelPass it m).1.recipients,
              r.domain_idx = i → rcptDone r.status = true)) ∧
    handleCancelCore (some it) (some m) =
      (if (cancelPass it m).1.domains.any (fun d => pendingStatus d.status) then
        MutOutcome.ok true (cancelPass it m).1
          [.save (some ((nextEvent (cancelPass it m).1).getD 0))
             (some ((nextEvent m).getD 0))]
      else
        MutOutcome.ok true (cancelPass it m).1 [.remove ((nextEvent m).getD 0)]) := by
  have hfoundraw : m.recipients.any (fun r => (cancelRecipient it r).2) = true := by
    rw [congrArg m.recipients.any (funext fun r => cancelRecipient_snd it r)]
    exact List.any_eq_true.mpr hf
  have hfound : (cancelPass it m).2 = true := by
    rw [cancelPass_found]
    exact List.any_eq_true.mpr hf
  refine ⟨?_, ?_, ?_⟩
  · intro i
    rw [cancelPass_recipients, List.getElem?_map]
    cases m.recipients[i]? with
    | none => rfl
    | some r => simp [cancelRecipient_fst]
  · intro i d hd hpend
    rw [cancelPass_domains_of_found it m hfoundraw, mapWithIdx_getElem?, hd]
    simp only [Nat.zero_add, Option.map_some]
    refine ⟨recomputeDomain (m.recipients.map (fun r => (cancelRecipient it r).1)) i d,
      rfl, ?_⟩
    rw [cancelPass_recipients]
    exact recomputeDomain_spec (m.recipients.map (fun r => (cancelRecipient it r).1)) i d hpend
  · unfold handleCancelCore
    by_cases hpend : (cancelPass it m).1.domains.any (fun d => pendingStatus d.status) <;>
      simp [hfound, hpend]

/-- Witness for C3 at scenario C: cancelling one of msgC's two pending
recipients of its single domain re-saves the record (the domain is still
pending), it does not delete it. -/
theorem c3_witness :
    handleCancelCore (some ("a@".toList)) (some msgC) =
      MutOutcome.ok true (cancelPass ("a@".toList) msgC).1
        [.save (some ((nextEvent (cancelPass ("a@".toList) msgC).1).getD 0))
           (some ((nextEvent msgC).getD 0))] := by
  have h := (c3_cancel_filter ("a@".toList) msgC (by decide)).2.2
  rw [h]
  decide

/-- C7: the reschedule path passes (previous next-event, new next-event)
to the save operation, but the cancel path passes them swapped — here the
cancel of msgE saves under (new = 200, previous = 100) while the
reschedule of msgE saves under (previous = 100, new = 300). -/
theorem c7_save_argument_order :
    handleCancelCore (some ("a@".toList)) (some msgE) =
      MutOutcome.ok true (cancelPass ("a@".toList) msgE).1 [.save (some 200) (some 100)] ∧
    (nextEvent msgE).getD 0 = 100 ∧
    (nextEvent (cancelPass ("a@".toList) msgE).1).getD 0 = 200 ∧
    handleRescheduleCore 0 (some 500) none (some msgE) =
      MutOutcome.ok true (rescheduleMessage 500 none msgE).1
        [.save (some 100) (some 300), .reload] ∧
    (nextEvent (rescheduleMessage 500 none msgE).1).getD 0 = 300 :=
  ⟨by decide, by decide, by decide, by decide, by decide⟩



